import Mathlib

/-!
Shallow embedding of `src/Assignment2.py` (Spatial Filtering dashboard).

The pipeline functions (`apply_mean_filter`, `apply_median_filter`,
`apply_mode_filter`, `apply_laplacian_filter`, `apply_sobel_filter`) are
one-call wrappers around image-processing library primitives; we embed the
documented semantics of those primitives over rasters modelled as lists of
rows of natural-number (8-bit) intensities:

* `cv2.blur` — normalized box filter, border `BORDER_REFLECT_101` (the cv2
  default), result rounded to nearest (ties to even, as `saturate_cast`).
* `cv2.medianBlur` — median of the k×k neighbourhood, border replicate.
* `scipy.ndimage.generic_filter` with `np.bincount(x).argmax()` — per
  neighbourhood the first maximum of the frequency table; scipy default
  border mode is edge-including reflect.
* `cv2.Laplacian(img, CV_16S, ksize=3)` — for aperture 3 OpenCV uses the
  Sobel-second-derivative kernel [[2,0,2],[0,-8,0],[2,0,2]], output
  saturated to the int16 range.
* `cv2.convertScaleAbs` — absolute value saturated to [0,255].
* `cv2.subtract` on uint8 — saturating subtraction (truncated Nat sub).
* `cv2.Sobel` ksize=3 — the standard 3×3 Sobel kernels at int16 precision.
* `cv2.addWeighted(a, 0.5, b, 0.5, 0)` — `(a+b)/2` rounded to nearest,
  ties to even (the halves are exact in floating point, so this is exact).

The GUI orchestrator (`SpatialFilteringApp`) is embedded as a `Session`
record and pure transition functions returning the new session paired with
the reported error, following the Python method bodies line by line; GUI
inputs (`imread` result, selected method, kernel size, noise mode, smooth
flag) are passed as arguments, and the randomized library call
`(random_noise(original, mode=...) * 255).astype(np.uint8)` is abstracted
as a function parameter `noiseFn` (the random source is folded into it).
-/

namespace SpatialFiltering

/-- A raster: rows of 8-bit intensity samples (as `Nat`). -/
abbrev Raster := List (List Nat)

def height (img : Raster) : Nat := img.length

def width (img : Raster) : Nat := (img.headD []).length

/-- A raster is rectangular of width `w` and all samples fit in 8 bits. -/
def validRaster (img : Raster) : Prop :=
  ∀ row ∈ img, ∀ v ∈ row, v ≤ 255

instance (img : Raster) : Decidable (validRaster img) := by
  unfold validRaster; infer_instance

/-- Border replicate (`cv2.BORDER_REPLICATE`, used by `medianBlur`):
clamp the index into `[0, n-1]`. -/
def replicateIdx (n : Nat) (i : Int) : Nat :=
  (max 0 (min ((n : Int) - 1) i)).toNat

/-- Border reflect without repeating the edge (`cv2.BORDER_REFLECT_101`,
the cv2 default used by `blur`, `Laplacian`, `Sobel`). -/
def reflect101 (n : Nat) (i : Int) : Nat :=
  if n ≤ 1 then 0
  else
    let m := (i % (2 * (n : Int) - 2)).toNat
    if m < n then m else 2 * (n - 1) - m

/-- Edge-including reflect (scipy `mode='reflect'`, the
`ndimage.generic_filter` default). -/
def reflectEdge (n : Nat) (i : Int) : Nat :=
  if n = 0 then 0
  else
    let m := (i % (2 * (n : Int))).toNat
    if m < n then m else 2 * n - 1 - m

/-- Sample a raster at (possibly out-of-range) integer coordinates using
border function `b`. -/
def pxAt (b : Nat → Int → Nat) (img : Raster) (r c : Int) : Nat :=
  (img.getD (b (height img) r) []).getD (b (width img) c) 0

/-- The k×k neighbourhood of pixel `(r, c)` (anchor at `k/2`, matching the
cv2 default anchor and the scipy origin 0), flattened row-major. -/
def neighborhood (b : Nat → Int → Nat) (img : Raster) (k : Nat) (r c : Nat) :
    List Nat :=
  (List.range k).flatMap fun dr =>
    (List.range k).map fun dc =>
      pxAt b img ((r : Int) + dr - (k / 2 : Nat)) ((c : Int) + dc - (k / 2 : Nat))

/-- Build an `h × w` raster from a pixel function. -/
def mapPixels (h w : Nat) (f : Nat → Nat → Nat) : Raster :=
  (List.range h).map fun r => (List.range w).map fun c => f r c

/-- Round `s / n` to nearest, ties to even (`saturate_cast` from an exact
floating-point value). -/
def rneDiv (s n : Nat) : Nat :=
  let q := s / n
  let r := s % n
  if 2 * r < n then q
  else if n < 2 * r then q + 1
  else if q % 2 = 0 then q else q + 1

/-- `cv2.blur(img, (ksize, ksize))`: normalized box filter. -/
def apply_mean_filter (img : Raster) (ksize : Nat) : Raster :=
  mapPixels (height img) (width img) fun r c =>
    rneDiv (neighborhood reflect101 img ksize r c).sum (ksize * ksize)

/-- `cv2.medianBlur(img, ksize)`: middle element of the sorted k×k
neighbourhood. -/
def apply_median_filter (img : Raster) (ksize : Nat) : Raster :=
  mapPixels (height img) (width img) fun r c =>
    let nb := neighborhood replicateIdx img ksize r c
    (nb.insertionSort (· ≤ ·)).getD (nb.length / 2) 0

/-- `np.bincount(xs)`: frequency table of `xs`, indexed `0 .. max xs`. -/
def bincount (xs : List Nat) : List Nat :=
  (List.range (xs.foldr max 0 + 1)).map fun i => xs.count i

/-- `np.argmax`: index of the first maximum of a list (0 on the empty
list; `np.bincount` output is never empty here). -/
def argmaxFirst : List Nat → Nat
  | [] => 0
  | x :: xs => if xs.foldr max 0 ≤ x then 0 else 1 + argmaxFirst xs

/-- The mode-filter kernel `lambda x: np.bincount(x.astype(int)).argmax()`:
the smallest value of maximal frequency. -/
def bincountArgmax (xs : List Nat) : Nat :=
  argmaxFirst (bincount xs)

/-- `ndimage.generic_filter(img, lambda x: np.bincount(x).argmax(), size=ksize)`. -/
def apply_mode_filter (img : Raster) (ksize : Nat) : Raster :=
  mapPixels (height img) (width img) fun r c =>
    bincountArgmax (neighborhood reflectEdge img ksize r c)

/-- Saturate to the `int16` range (`CV_16S` output depth). -/
def sat16 (x : Int) : Int :=
  max (-32768) (min 32767 x)

/-- Correlate a 3×3 integer kernel (rows of `ker`, anchor centre) with the
raster at `(r, c)`, border `BORDER_REFLECT_101`. -/
def conv3 (ker : List (List Int)) (img : Raster) (r c : Nat) : Int :=
  ((List.range 3).map fun dr =>
    ((List.range 3).map fun dc =>
      (ker.getD dr []).getD dc 0 *
        (pxAt reflect101 img ((r : Int) + dr - 1) ((c : Int) + dc - 1) : Int)).sum).sum

/-- `cv2.convertScaleAbs`: absolute value saturated to `[0, 255]`. -/
def scaleAbs8 (x : Int) : Nat :=
  min x.natAbs 255

/-- The aperture-3 OpenCV Laplacian kernel (for `ksize=3` OpenCV combines
the two Sobel second derivatives, giving [[2,0,2],[0,-8,0],[2,0,2]]). -/
def lapKernel : List (List Int) := [[2, 0, 2], [0, -8, 0], [2, 0, 2]]

def sobelXKernel : List (List Int) := [[-1, 0, 1], [-2, 0, 2], [-1, 0, 1]]

def sobelYKernel : List (List Int) := [[-1, -2, -1], [0, 0, 0], [1, 2, 1]]

/-- `apply_laplacian_filter`: Laplacian at `CV_16S`, `convertScaleAbs`,
then `cv2.subtract(img, lap_abs)` (saturating uint8 subtraction). -/
def apply_laplacian_filter (img : Raster) : Raster :=
  mapPixels (height img) (width img) fun r c =>
    pxAt reflect101 img r c - scaleAbs8 (sat16 (conv3 lapKernel img r c))

/-- `apply_sobel_filter`: both Sobel derivatives at `CV_16S`,
`convertScaleAbs` each, then `cv2.addWeighted(ax, 0.5, ay, 0.5, 0)`. -/
def apply_sobel_filter (img : Raster) : Raster :=
  mapPixels (height img) (width img) fun r c =>
    rneDiv (scaleAbs8 (sat16 (conv3 sobelXKernel img r c)) +
            scaleAbs8 (sat16 (conv3 sobelYKernel img r c))) 2

/-! ## Session / orchestrator (`SpatialFilteringApp`) -/

/-- Errors surfaced to the user via `messagebox` calls. -/
inductive Err where
  | couldNotRead
  | noImage
  | noNoiseType
  | noResults
deriving DecidableEq

/-- The orchestrator state: `original_img`, `processing_base_img`,
`current_name`, and the ordered `results` dictionary. -/
structure Session where
  original : Option Raster
  workingBase : Option Raster
  currentName : String
  results : List (String × Raster)
deriving DecidableEq

/-- Python `dict` assignment `results[label] = img`: overwrite in place if
the key exists, else append (insertion order preserved). -/
def insertResult (label : String) (img : Raster) :
    List (String × Raster) → List (String × Raster)
  | [] => [(label, img)]
  | (l, v) :: rest =>
    if l = label then (l, img) :: rest else (l, v) :: insertResult label img rest

/-- `reset_image`: warns when no image is loaded, else sets the working
base back to the original and the results to the single Original entry. -/
def reset_image (s : Session) : Session × Option Err :=
  match s.original with
  | none => (s, some .noImage)
  | some o =>
    ({ s with workingBase := some o, results := [("Original", o)] }, none)

/-- `upload_image`: `imread` either fails (`none`) with an error and no
state change, or yields a raster; then the original and name are set and
`reset_image` runs. -/
def upload_image (loaded : Option Raster) (name : String) (s : Session) :
    Session × Option Err :=
  match loaded with
  | none => (s, some .couldNotRead)
  | some img => reset_image { s with original := some img, currentName := name }

/-- Entry label chosen by `add_noise` for each recognized noise mode. -/
def noiseLabel (noiseType : String) : String :=
  if noiseType = "gaussian" then "Base: Gaussian Noise"
  else "Base: Salt & Pepper Noise"

/-- `add_noise`: always computes against `original_img`; `noiseFn`
abstracts `(random_noise(original, mode=...) * 255).astype(np.uint8)`
(the random source is folded into it). -/
def add_noise (noiseFn : String → Raster → Raster) (noiseType : String)
    (s : Session) : Session × Option Err :=
  match s.original with
  | none => (s, some .noImage)
  | some o =>
    if noiseType = "gaussian" ∨ noiseType = "s&p" then
      let noisy := noiseFn noiseType o
      ({ s with workingBase := some noisy,
                results := insertResult (noiseLabel noiseType) noisy s.results },
       none)
    else (s, some .noNoiseType)

/-- `apply_method`: optional median-5 pre-smoothing for the sharpening and
edge methods, then the selected filter on the working base; an
unrecognized method hits the bare `else: return` (no error, no change). -/
def apply_method (method : String) (ksize : Nat) (smoothFlag : Bool)
    (s : Session) : Session × Option Err :=
  match s.workingBase with
  | none => (s, some .noImage)
  | some base =>
    let pre := smoothFlag &&
      (method = "Laplacian Sharpening" || method = "Sobel Edge Detection")
    let imgIn := if pre then apply_median_filter base 5 else base
    let statusPre := if pre then "Smoothed then " else ""
    let enhanced : Option Raster :=
      if method = "Mean Filter" then some (apply_mean_filter imgIn ksize)
      else if method = "Median Filter" then some (apply_median_filter imgIn ksize)
      else if method = "Mode Filter" then some (apply_mode_filter imgIn ksize)
      else if method = "Laplacian Sharpening" then some (apply_laplacian_filter imgIn)
      else if method = "Sobel Edge Detection" then some (apply_sobel_filter imgIn)
      else none
    match enhanced with
    | none => (s, none)
    | some e =>
      ({ s with results := insertResult (statusPre ++ method) e s.results }, none)

/-- `update_kernel_label`: the slider value (already rounded to a `Nat`)
is bumped to the next integer when even, so the kernel size stays odd. -/
def update_kernel_label (v : Nat) : Nat :=
  if v % 2 = 0 then v + 1 else v

/-- One page of the exported report. -/
structure Page where
  heading : String
  leftImg : Option Raster
  rightImg : Option Raster
  noteText : Option String
deriving DecidableEq

/-- The `filter_kernels` description table; the Mean entry is the one
callable, taking the current kernel size. -/
def filter_kernels (name : String) (k : Nat) : Option String :=
  if name = "Laplacian Sharpening" then
    some "Kernel: [[0, 1, 0], [1, -4, 1], [0, 1, 0]]\n(Subtracted from Original)"
  else if name = "Sobel Edge Detection" then
    some "Sobel X: [[-1, 0, 1], [-2, 0, 2], [-1, 0, 1]]\nSobel Y: [[-1,-2,-1], [0,0,0], [1,2,1]]"
  else if name = "Mean Filter" then
    some ("Kernel: 1/" ++ toString (k * k) ++ " * ones(" ++ toString k ++ "," ++ toString k ++ ")")
  else if name = "Median Filter" then
    some "Non-linear: Takes median value in KxK neighborhood."
  else if name = "Mode Filter" then
    some "Non-linear: Takes most frequent value in KxK neighborhood."
  else none

/-- `name.replace("Smoothed then ", "")`: in this program the pattern only
ever occurs as a label prefix, so replacement is prefix stripping. -/
def cleanName (name : String) : String :=
  if "Smoothed then ".isPrefixOf name then name.drop 14 else name

/-- One result page: original next to processed, plus the filter
description (using the kernel size selected at export time). -/
def entryPage (orig : Option Raster) (kNow : Nat) (p : String × Raster) : Page :=
  { heading := "Analysis: " ++ p.1
    leftImg := orig
    rightImg := some p.2
    noteText := (filter_kernels (cleanName p.1) kNow).map
      (fun t => "Filter Expression:\n" ++ t) }

/-- `save_report`: warns when only the Original entry exists; otherwise a
cover page followed by one page per non-Original entry, in order. The
session itself is not modified. -/
def save_report (kNow : Nat) (s : Session) : Except Err (List Page) :=
  if s.results.length ≤ 1 then .error .noResults
  else
    .ok (⟨"Spatial Filtering Analysis", none, none,
          some ("Image: " ++ s.currentName)⟩ ::
      (s.results.filter (fun p => p.1 ≠ "Original")).map (entryPage s.original kNow))

/-- The operations a loaded session may undergo before a reset. -/
inductive SOp where
  | noiseOp (noiseFn : String → Raster → Raster) (noiseType : String)
  | filterOp (method : String) (ksize : Nat) (smoothFlag : Bool)

def applySOp (s : Session) : SOp → Session
  | .noiseOp fn t => (add_noise fn t s).1
  | .filterOp m k sm => (apply_method m k sm s).1

def runOps (ops : List SOp) (s : Session) : Session :=
  ops.foldl applySOp s

/-! ## Concrete sample data (used to instantiate theorems) -/

/-- A degenerate noise source (identity), a valid instance of `noiseFn`. -/
def noiseId : String → Raster → Raster := fun _ r => r

/-- The startup session: nothing loaded. -/
def sessEmpty : Session := ⟨none, none, "", []⟩

/-- A freshly loaded session over the 1×1 raster [[5]]. -/
def sessA : Session := ⟨some [[5]], some [[5]], "img", [("Original", [[5]])]⟩

/-- A session with the same original as `sessA` but a different working
base and extra entries. -/
def sessB : Session :=
  ⟨some [[5]], some [[9]], "other",
    [("Original", [[5]]), ("Base: Gaussian Noise", [[9]])]⟩

/-- A session holding one processed result besides the Original entry. -/
def sessRep : Session :=
  ⟨some [[5]], some [[5]], "img", [("Original", [[5]]), ("Mean Filter", [[7]])]⟩

/-! ## Basic lemmas -/

theorem getD_range_map {α : Type} (f : Nat → α) (d : α) {n i : Nat} (h : i < n) :
    ((List.range n).map f).getD i d = f i := by
  simp [List.getD_eq_getElem?_getD, List.getElem?_map, List.getElem?_range, h]

theorem mapPixels_length (h w : Nat) (f : Nat → Nat → Nat) :
    (mapPixels h w f).length = h := by
  simp [mapPixels]

theorem mapPixels_row_length (h w : Nat) (f : Nat → Nat → Nat) :
    ∀ row ∈ mapPixels h w f, row.length = w := by
  intro row hrow
  simp only [mapPixels, List.mem_map] at hrow
  obtain ⟨r, -, rfl⟩ := hrow
  simp

theorem mapPixels_getD {h w : Nat} (f : Nat → Nat → Nat) {r c : Nat}
    (hr : r < h) (hc : c < w) :
    ((mapPixels h w f).getD r []).getD c 0 = f r c := by
  rw [mapPixels, getD_range_map _ _ hr, getD_range_map _ _ hc]

theorem mapPixels_mem {h w : Nat} {f : Nat → Nat → Nat} {row : List Nat}
    {v : Nat} (hrow : row ∈ mapPixels h w f) (hv : v ∈ row) :
    ∃ r c, r < h ∧ c < w ∧ v = f r c := by
  simp only [mapPixels, List.mem_map] at hrow
  obtain ⟨r, hr, rfl⟩ := hrow
  simp only [List.mem_map] at hv
  obtain ⟨c, hc, rfl⟩ := hv
  exact ⟨r, c, List.mem_range.mp hr, List.mem_range.mp hc, rfl⟩

theorem mem_le_foldr_max {a : Nat} : ∀ {l : List Nat}, a ∈ l → a ≤ l.foldr max 0
  | _ :: t, h => by
    rcases List.mem_cons.mp h with rfl | ht
    · exact le_max_left _ _
    · exact le_trans (mem_le_foldr_max ht) (le_max_right _ _)

theorem getD_le_foldr_max : ∀ (l : List Nat) (i : Nat), i < l.length →
    l.getD i 0 ≤ l.foldr max 0
  | x :: t, 0, _ => by
    rw [List.getD_cons_zero]
    exact le_max_left x (t.foldr max 0)
  | x :: t, i + 1, h => by
    simpa using le_trans (getD_le_foldr_max t i (Nat.lt_of_succ_lt_succ h))
      (le_max_right x (t.foldr max 0))

theorem argmaxFirst_lt_length : ∀ {l : List Nat}, l ≠ [] → argmaxFirst l < l.length
  | x :: xs, _ => by
    rw [argmaxFirst]
    split
    · simp
    · rename_i hx
      have hxs : xs ≠ [] := by
        rintro rfl; exact hx (by simp)
      have := argmaxFirst_lt_length hxs
      simpa [Nat.add_comm 1 (argmaxFirst xs)] using Nat.succ_lt_succ this

theorem getD_argmaxFirst : ∀ (l : List Nat), l.getD (argmaxFirst l) 0 = l.foldr max 0
  | [] => rfl
  | x :: xs => by
    rw [argmaxFirst]
    split
    · rename_i hx
      simpa using (max_eq_left hx).symm
    · rename_i hx
      push_neg at hx
      rw [Nat.add_comm 1 (argmaxFirst xs)]
      simpa using (getD_argmaxFirst xs).trans (max_eq_right hx.le).symm

theorem getD_lt_of_lt_argmaxFirst :
    ∀ (l : List Nat) (i : Nat), i < argmaxFirst l →
      l.getD i 0 < l.getD (argmaxFirst l) 0
  | [], i, h => by simp [argmaxFirst] at h
  | x :: xs, i, h => by
    by_cases hcond : xs.foldr max 0 ≤ x
    · rw [argmaxFirst, if_pos hcond] at h
      omega
    · rw [argmaxFirst, if_neg hcond] at h ⊢
      push_neg at hcond
      rw [Nat.add_comm 1 (argmaxFirst xs)] at h ⊢
      match i with
      | 0 =>
        rw [List.getD_cons_zero, List.getD_cons_succ, getD_argmaxFirst xs]
        exact hcond
      | i + 1 =>
        rw [List.getD_cons_succ, List.getD_cons_succ]
        exact getD_lt_of_lt_argmaxFirst xs i (Nat.lt_of_succ_lt_succ h)

theorem bincount_length (xs : List Nat) :
    (bincount xs).length = xs.foldr max 0 + 1 := by
  simp [bincount]

theorem bincount_getD {xs : List Nat} {i : Nat} (h : i ≤ xs.foldr max 0) :
    (bincount xs).getD i 0 = xs.count i := by
  rw [bincount, getD_range_map _ _ (Nat.lt_succ_of_le h)]

theorem count_eq_zero_of_foldr_max_lt {xs : List Nat} {v : Nat}
    (h : xs.foldr max 0 < v) : xs.count v = 0 := by
  rw [List.count_eq_zero]
  intro hv
  exact absurd (mem_le_foldr_max hv) (Nat.not_le_of_lt h)

theorem bincountArgmax_le_max (xs : List Nat) :
    bincountArgmax xs ≤ xs.foldr max 0 := by
  have h1 : argmaxFirst (bincount xs) < (bincount xs).length :=
    argmaxFirst_lt_length (by
      intro h
      have := bincount_length xs
      rw [h] at this
      simp at this)
  rw [bincount_length] at h1
  exact Nat.lt_succ_iff.mp h1

theorem count_bincountArgmax_eq (xs : List Nat) :
    xs.count (bincountArgmax xs) = (bincount xs).getD (bincountArgmax xs) 0 :=
  (bincount_getD (bincountArgmax_le_max xs)).symm

/-- The per-neighbourhood mode kernel selects a value of maximal
frequency. -/
theorem bincountArgmax_count_le (xs : List Nat) (v : Nat) :
    xs.count v ≤ xs.count (bincountArgmax xs) := by
  rw [count_bincountArgmax_eq]
  by_cases hv : v ≤ xs.foldr max 0
  · rw [← bincount_getD hv]
    rw [bincountArgmax, getD_argmaxFirst]
    apply getD_le_foldr_max
    rw [bincount_length]
    exact Nat.lt_succ_of_le hv
  · rw [count_eq_zero_of_foldr_max_lt (Nat.lt_of_not_le hv)]
    exact Nat.zero_le _

/-- Among tied maximal frequencies the kernel selects the smallest value
(`argmax` returns the first maximum of the frequency table). -/
theorem bincountArgmax_min_of_tie {xs : List Nat} {v : Nat}
    (h : xs.count v = xs.count (bincountArgmax xs)) : bincountArgmax xs ≤ v := by
  by_contra hlt
  push_neg at hlt
  have hvmax : v ≤ xs.foldr max 0 :=
    le_trans hlt.le (bincountArgmax_le_max xs)
  have hne : (bincount xs).getD v 0 < (bincount xs).getD (bincountArgmax xs) 0 :=
    getD_lt_of_lt_argmaxFirst _ v hlt
  rw [bincount_getD hvmax, ← count_bincountArgmax_eq] at hne
  omega

theorem getD_le_255 {l : List Nat} (hl : ∀ v ∈ l, v ≤ 255) (j : Nat) :
    l.getD j 0 ≤ 255 := by
  by_cases hj : j < l.length
  · rw [List.getD_eq_getElem _ _ hj]
    exact hl _ (List.getElem_mem hj)
  · rw [List.getD_eq_default _ _ (Nat.le_of_not_lt hj)]
    exact Nat.zero_le _

theorem pxAt_le_255 {img : Raster} (hv : validRaster img)
    (b : Nat → Int → Nat) (r c : Int) : pxAt b img r c ≤ 255 := by
  rw [pxAt]
  set i := b (height img) r
  by_cases hi : i < img.length
  · rw [List.getD_eq_getElem _ _ hi]
    exact getD_le_255 (hv _ (List.getElem_mem hi)) _
  · rw [List.getD_eq_default _ _ (Nat.le_of_not_lt hi)]
    simp

theorem scaleAbs8_le (x : Int) : scaleAbs8 x ≤ 255 :=
  min_le_right _ _

theorem rneDiv_half_le {s : Nat} (hs : s ≤ 510) : rneDiv s 2 ≤ 255 := by
  rw [rneDiv]
  split
  · omega
  · split
    · omega
    · split <;> omega

theorem width_eq_of_rows {img : Raster} {w : Nat}
    (h : ∀ row ∈ img, row.length = w) (hne : img ≠ []) : width img = w := by
  match img with
  | row :: rest => exact h row (List.mem_cons_self _ _)

theorem mapPixels_dims (img : Raster) (f : Nat → Nat → Nat) :
    height (mapPixels (height img) (width img) f) = height img ∧
    width (mapPixels (height img) (width img) f) = width img ∧
    ∀ row ∈ mapPixels (height img) (width img) f, row.length = width img := by
  refine ⟨mapPixels_length _ _ _, ?_, mapPixels_row_length _ _ _⟩
  by_cases h0 : height img = 0
  · have himg : img = [] := List.length_eq_zero.mp h0
    subst himg
    rfl
  · exact width_eq_of_rows (mapPixels_row_length _ _ _) (by
      intro hnil
      exact h0 (by simpa [mapPixels_length] using congrArg List.length hnil))

/-- C9: for every raster and every odd kernel size k in [3,15], the Mean,
Median, and Mode filters each return a raster with exactly the same height
and width as the input (every row having that width). -/
theorem mean_median_mode_preserve_dims (img : Raster) (k : Nat)
    (_hodd : Odd k) (_h3 : 3 ≤ k) (_h15 : k ≤ 15) :
    (height (apply_mean_filter img k) = height img ∧
     width (apply_mean_filter img k) = width img ∧
     ∀ row ∈ apply_mean_filter img k, row.length = width img) ∧
    (height (apply_median_filter img k) = height img ∧
     width (apply_median_filter img k) = width img ∧
     ∀ row ∈ apply_median_filter img k, row.length = width img) ∧
    (height (apply_mode_filter img k) = height img ∧
     width (apply_mode_filter img k) = width img ∧
     ∀ row ∈ apply_mode_filter img k, row.length = width img) := by
  exact ⟨mapPixels_dims img _, mapPixels_dims img _, mapPixels_dims img _⟩

theorem mean_median_mode_preserve_dims_witness :
    Odd 3 ∧ 3 ≤ 3 ∧ 3 ≤ 15 ∧
    (height (apply_mean_filter [[10, 20], [30, 40]] 3) = 2 ∧
     width (apply_mean_filter [[10, 20], [30, 40]] 3) = 2) := by
  have h := mean_median_mode_preserve_dims [[10, 20], [30, 40]] 3
    (by decide) (by decide) (by decide)
  exact ⟨by decide, by decide, by decide, h.1.1, h.1.2.1⟩

/-- C6: for every valid 8-bit input raster, every output sample of
`apply_laplacian_filter` and of `apply_sobel_filter` lies within [0,255]
(samples are `Nat`, so the lower bound is inherent): the final saturating
subtraction, respectively saturating weighted sum of the two clamped
absolute gradients, cannot leave the 8-bit range. -/
theorem laplacian_sobel_output_in_range (img : Raster) (hv : validRaster img) :
    validRaster (apply_laplacian_filter img) ∧
    validRaster (apply_sobel_filter img) := by
  constructor
  · intro row hrow v hvv
    obtain ⟨r, c, -, -, rfl⟩ := mapPixels_mem hrow hvv
    exact le_trans (Nat.sub_le _ _) (pxAt_le_255 hv _ _ _)
  · intro row hrow v hvv
    obtain ⟨r, c, -, -, rfl⟩ := mapPixels_mem hrow hvv
    exact rneDiv_half_le (by
      have h1 := scaleAbs8_le (sat16 (conv3 sobelXKernel img r c))
      have h2 := scaleAbs8_le (sat16 (conv3 sobelYKernel img r c))
      omega)

theorem laplacian_sobel_output_in_range_witness :
    validRaster [[0, 200], [255, 3]] ∧
    (validRaster (apply_laplacian_filter [[0, 200], [255, 3]]) ∧
     validRaster (apply_sobel_filter [[0, 200], [255, 3]])) :=
  ⟨by decide, laplacian_sobel_output_in_range [[0, 200], [255, 3]] (by decide)⟩

/-- C1 (amended): each output pixel of the Mode filter is a value of
maximal frequency in the k×k neighbourhood and the smallest among tied
maximal frequencies; a 3×3 neighbourhood containing {1,1,2,2} yields 1
whenever the remaining cells neither push any count above 2 nor raise the
count of a value smaller than 1 (i.e. 0) to 2. -/
theorem mode_filter_first_max (img : Raster) (k r c : Nat)
    (hr : r < height img) (hc : c < width img) :
    (∀ v, (neighborhood reflectEdge img k r c).count v ≤
      (neighborhood reflectEdge img k r c).count
        (((apply_mode_filter img k).getD r []).getD c 0)) ∧
    (∀ v, (neighborhood reflectEdge img k r c).count v =
      (neighborhood reflectEdge img k r c).count
        (((apply_mode_filter img k).getD r []).getD c 0) →
      ((apply_mode_filter img k).getD r []).getD c 0 ≤ v) ∧
    (∀ xs : List Nat, xs.length = 9 → xs.count 1 = 2 → xs.count 2 = 2 →
      (∀ v, xs.count v ≤ 2) → xs.count 0 ≤ 1 → bincountArgmax xs = 1) := by
  have hm : ((apply_mode_filter img k).getD r []).getD c 0 =
      bincountArgmax (neighborhood reflectEdge img k r c) := by
    rw [apply_mode_filter]
    exact mapPixels_getD _ hr hc
  refine ⟨?_, ?_, ?_⟩
  · intro v
    rw [hm]
    exact bincountArgmax_count_le _ v
  · intro v hveq
    rw [hm] at hveq ⊢
    exact bincountArgmax_min_of_tie hveq
  · intro xs _ h1 h2 hle h0
    have hup := bincountArgmax_count_le xs 1
    have hcm : xs.count (bincountArgmax xs) = 2 := by
      have := hle (bincountArgmax xs)
      omega
    have hle1 : bincountArgmax xs ≤ 1 :=
      bincountArgmax_min_of_tie (by omega)
    have h01 : bincountArgmax xs = 0 ∨ bincountArgmax xs = 1 := by omega
    rcases h01 with h | h
    · rw [h] at hcm
      omega
    · exact h

theorem mode_filter_first_max_witness :
    1 < height [[1, 1, 2], [2, 0, 3], [4, 5, 6]] ∧
    1 < width [[1, 1, 2], [2, 0, 3], [4, 5, 6]] ∧
    (∀ v, (neighborhood reflectEdge [[1, 1, 2], [2, 0, 3], [4, 5, 6]] 3 1 1).count v ≤
      (neighborhood reflectEdge [[1, 1, 2], [2, 0, 3], [4, 5, 6]] 3 1 1).count
        (((apply_mode_filter [[1, 1, 2], [2, 0, 3], [4, 5, 6]] 3).getD 1 []).getD 1 0)) ∧
    (∀ v, (neighborhood reflectEdge [[1, 1, 2], [2, 0, 3], [4, 5, 6]] 3 1 1).count v =
      (neighborhood reflectEdge [[1, 1, 2], [2, 0, 3], [4, 5, 6]] 3 1 1).count
        (((apply_mode_filter [[1, 1, 2], [2, 0, 3], [4, 5, 6]] 3).getD 1 []).getD 1 0) →
      ((apply_mode_filter [[1, 1, 2], [2, 0, 3], [4, 5, 6]] 3).getD 1 []).getD 1 0 ≤ v) ∧
    (∀ xs : List Nat, xs.length = 9 → xs.count 1 = 2 → xs.count 2 = 2 →
      (∀ v, xs.count v ≤ 2) → xs.count 0 ≤ 1 → bincountArgmax xs = 1) :=
  ⟨by decide, by decide,
    mode_filter_first_max [[1, 1, 2], [2, 0, 3], [4, 5, 6]] 3 1 1
      (by decide) (by decide)⟩

/-- C1 counterexample: the claim says a 3×3 neighbourhood containing
{1,1,2,2} with arbitrary remaining cells yields 1, but remaining cells can
out-vote the tie: with the five remaining cells all 3, the centre output
pixel is 3, not 1. -/
theorem mode_filter_arbitrary_rest_counterexample :
    ((apply_mode_filter [[1, 1, 2], [2, 3, 3], [3, 3, 3]] 3).getD 1 []).getD 1 0 = 3 ∧
    (neighborhood reflectEdge [[1, 1, 2], [2, 3, 3], [3, 3, 3]] 3 1 1).count 1 = 2 ∧
    (neighborhood reflectEdge [[1, 1, 2], [2, 3, 3], [3, 3, 3]] 3 1 1).count 2 = 2 ∧
    (3 : Nat) ≠ 1 := by
  decide

/-! ## Orchestrator lemmas -/

theorem add_noise_original (fn : String → Raster → Raster) (t : String)
    (s : Session) : (add_noise fn t s).1.original = s.original := by
  cases hs : s.original with
  | none => simp [add_noise, hs]
  | some o =>
    simp only [add_noise, hs]
    split
    · rfl
    · exact hs

theorem apply_method_original (m : String) (k : Nat) (sm : Bool) (s : Session) :
    (apply_method m k sm s).1.original = s.original := by
  rw [apply_method]
  cases hs : s.workingBase with
  | none => rfl
  | some b =>
    simp only
    split
    · rfl
    · rfl

theorem applySOp_original (s : Session) (op : SOp) :
    (applySOp s op).original = s.original := by
  cases op with
  | noiseOp fn t => exact add_noise_original fn t s
  | filterOp m k sm => exact apply_method_original m k sm s

theorem runOps_original (ops : List SOp) (s : Session) :
    (runOps ops s).original = s.original := by
  induction ops generalizing s with
  | nil => rfl
  | cons op rest ih =>
    rw [runOps, List.foldl_cons]
    exact (ih (applySOp s op)).trans (applySOp_original s op)

/-- C2: `add_noise` computes the noisy raster from `original_img`, never
from the current working base: with the same original (and the same noise
source), two sessions get the same new working base regardless of their
working bases and entries; the result replaces the working base and is
recorded under the label derived from the mode. -/
theorem add_noise_uses_original (noiseFn : String → Raster → Raster)
    (mode : String) (s1 s2 : Session) (o : Raster)
    (h1 : s1.original = some o) (h2 : s2.original = some o)
    (hm : mode = "gaussian" ∨ mode = "s&p") :
    (add_noise noiseFn mode s1).2 = none ∧
    (add_noise noiseFn mode s1).1.workingBase = some (noiseFn mode o) ∧
    (add_noise noiseFn mode s1).1.workingBase =
      (add_noise noiseFn mode s2).1.workingBase ∧
    (add_noise noiseFn mode s1).1.results =
      insertResult (noiseLabel mode) (noiseFn mode o) s1.results := by
  simp [add_noise, h1, h2, if_pos hm]

theorem add_noise_uses_original_witness :
    sessA.original = some [[5]] ∧ sessB.original = some [[5]] ∧
    ("gaussian" = "gaussian" ∨ "gaussian" = "s&p") ∧
    ((add_noise noiseId "gaussian" sessA).2 = none ∧
     (add_noise noiseId "gaussian" sessA).1.workingBase =
       some (noiseId "gaussian" [[5]]) ∧
     (add_noise noiseId "gaussian" sessA).1.workingBase =
       (add_noise noiseId "gaussian" sessB).1.workingBase ∧
     (add_noise noiseId "gaussian" sessA).1.results =
       insertResult (noiseLabel "gaussian") (noiseId "gaussian" [[5]]) sessA.results) :=
  ⟨rfl, rfl, Or.inl rfl,
    add_noise_uses_original noiseId "gaussian" sessA sessB [[5]] rfl rfl (Or.inl rfl)⟩

/-- C3: after any sequence of noise injections and filter applications on
a loaded session, `reset_image` succeeds and restores the entries to
exactly the one-element mapping Original ↦ original and the working base
to the original; and after any load or reset, looking up "Original" in
the entries yields the original. -/
theorem reset_restores (ops : List SOp) (s : Session) (o : Raster)
    (h : s.original = some o) :
    (reset_image (runOps ops s)).2 = none ∧
    (reset_image (runOps ops s)).1.results = [("Original", o)] ∧
    (reset_image (runOps ops s)).1.workingBase = some o ∧
    List.lookup "Original" (reset_image (runOps ops s)).1.results = some o ∧
    (∀ (img : Raster) (name : String) (t : Session),
      (upload_image (some img) name t).1.results = [("Original", img)] ∧
      (upload_image (some img) name t).1.original = some img ∧
      List.lookup "Original" (upload_image (some img) name t).1.results = some img) := by
  have ho : (runOps ops s).original = some o := (runOps_original ops s).trans h
  rw [reset_image, ho]
  refine ⟨rfl, rfl, rfl, by simp [List.lookup], ?_⟩
  intro img name t
  rw [upload_image, reset_image]
  exact ⟨rfl, rfl, by simp [List.lookup]⟩

theorem reset_restores_witness :
    sessA.original = some [[5]] ∧
    (reset_image (runOps [SOp.filterOp "Mean Filter" 3 false,
        SOp.noiseOp noiseId "gaussian"] sessA)).2 = none ∧
    (reset_image (runOps [SOp.filterOp "Mean Filter" 3 false,
        SOp.noiseOp noiseId "gaussian"] sessA)).1.results = [("Original", [[5]])] ∧
    (reset_image (runOps [SOp.filterOp "Mean Filter" 3 false,
        SOp.noiseOp noiseId "gaussian"] sessA)).1.workingBase = some [[5]] := by
  have h := reset_restores [SOp.filterOp "Mean Filter" 3 false,
    SOp.noiseOp noiseId "gaussian"] sessA [[5]] rfl
  exact ⟨rfl, h.1, h.2.1, h.2.2.1⟩

theorem filter_nonoriginal_length :
    ∀ l : List (String × Raster),
      (l.filter (fun p => p.1 ≠ "Original")).length +
        (l.map Prod.fst).count "Original" = l.length
  | [] => rfl
  | (key, v) :: rest => by
    have ih := filter_nonoriginal_length rest
    by_cases hk : key = "Original" <;>
      simp [List.filter_cons, List.count_cons, hk] at ih ⊢ <;> omega

/-- C4: `save_report` fails with the no-results warning exactly when the
entries hold at most the Original entry (size ≤ 1); with ≥ 2 entries and
Original present once, it yields exactly `1 + (size - 1)` pages: a cover
page plus one page per non-Original entry, each showing the original next
to the processed raster. -/
theorem save_report_pages (kNow : Nat) (s : Session) :
    (save_report kNow s = .error .noResults ↔ s.results.length ≤ 1) ∧
    ((s.results.map Prod.fst).count "Original" = 1 → 2 ≤ s.results.length →
      ∃ pages, save_report kNow s = .ok pages ∧
        pages.length = 1 + (s.results.length - 1) ∧
        ∀ p ∈ pages.drop 1, ∃ e ∈ s.results, e.1 ≠ "Original" ∧
          p = entryPage s.original kNow e ∧ p.leftImg = s.original ∧
          p.rightImg = some e.2) := by
  constructor
  · by_cases hlen : s.results.length ≤ 1
    · rw [save_report, if_pos hlen]
      exact ⟨fun _ => hlen, fun _ => rfl⟩
    · rw [save_report, if_neg hlen]
      exact ⟨fun h => absurd h (by simp), fun h => absurd h hlen⟩
  · intro hkey hlen
    have hnle : ¬ s.results.length ≤ 1 := by omega
    rw [save_report, if_neg hnle]
    refine ⟨_, rfl, ?_, ?_⟩
    · have hfl := filter_nonoriginal_length s.results
      simp only [List.length_cons, List.length_map]
      omega
    · intro p hp
      simp only [List.drop_succ_cons, List.drop_zero, List.mem_map] at hp
      obtain ⟨e, he, rfl⟩ := hp
      have hmem := List.mem_filter.mp he
      refine ⟨e, hmem.1, by simpa using hmem.2, rfl, rfl, rfl⟩

theorem save_report_pages_witness :
    ((sessRep.results.map Prod.fst).count "Original" = 1 ∧
     2 ≤ sessRep.results.length) ∧
    (save_report 3 sessRep = .error .noResults ↔ sessRep.results.length ≤ 1) ∧
    (∃ pages, save_report 3 sessRep = .ok pages ∧
      pages.length = 1 + (sessRep.results.length - 1)) := by
  have h := save_report_pages 3 sessRep
  obtain ⟨pages, hok, hlen, -⟩ := h.2 (by decide) (by decide)
  exact ⟨⟨by decide, by decide⟩, h.1, ⟨pages, hok, hlen⟩⟩

/-- C5 counterexample: the claim says applying the Mean filter with an
even kernel size (here k = 4) fails with InvalidParameter, and that an
unrecognized method selector fails likewise; the code has no such
validation: the even-k Mean application succeeds and records an entry,
and an unrecognized method returns silently with no error at all. -/
theorem invalid_parameter_counterexample :
    (apply_method "Mean Filter" 4 false sessA).2 = none ∧
    List.lookup "Mean Filter" (apply_method "Mean Filter" 4 false sessA).1.results =
      some (apply_mean_filter [[5]] 4) ∧
    apply_method "Totally Unknown" 3 false sessA = (sessA, none) := by
  decide

/-- C5 (amended): the pipeline performs no kernel-size validation —
`apply_method` applies the Mean filter even for an even kernel size, with
no error; an unrecognized method selector makes `apply_method` return
with no error and no state change; an unrecognized noise-mode selector
makes `add_noise` fail (with a warning) and change nothing; out-of-range
kernel sizes never reach the pipeline because the kernel-label callback
forces the slider value to an odd size in [3,15]. -/
theorem no_invalid_parameter_validation :
    (∀ v, 3 ≤ v → v ≤ 15 →
      update_kernel_label v % 2 = 1 ∧ 3 ≤ update_kernel_label v ∧
        update_kernel_label v ≤ 15) ∧
    (∀ (method : String) (k : Nat) (sm : Bool) (s : Session) (b : Raster),
      s.workingBase = some b →
      method ∉ (["Mean Filter", "Median Filter", "Mode Filter",
        "Laplacian Sharpening", "Sobel Edge Detection"] : List String) →
      apply_method method k sm s = (s, none)) ∧
    (∀ (fn : String → Raster → Raster) (mode : String) (s : Session) (o : Raster),
      s.original = some o → mode ≠ "gaussian" → mode ≠ "s&p" →
      add_noise fn mode s = (s, some .noNoiseType)) ∧
    (∀ (k : Nat) (s : Session) (b : Raster), s.workingBase = some b →
      (apply_method "Mean Filter" k false s).2 = none) := by
  refine ⟨?_, ?_, ?_, ?_⟩
  · intro v h3 h15
    rw [update_kernel_label]
    split <;> omega
  · intro method k sm s b hb hm
    simp only [List.mem_cons, List.not_mem_nil, or_false, not_or] at hm
    obtain ⟨hm1, hm2, hm3, hm4, hm5⟩ := hm
    simp [apply_method, hb, hm1, hm2, hm3, hm4, hm5]
  · intro fn mode s o ho hg hsp
    simp [add_noise, ho, hg, hsp]
  · intro k s b hb
    simp [apply_method, hb]

theorem no_invalid_parameter_validation_witness :
    (3 ≤ 4 ∧ 4 ≤ 15 ∧ update_kernel_label 4 % 2 = 1 ∧
      3 ≤ update_kernel_label 4 ∧ update_kernel_label 4 ≤ 15) ∧
    (sessA.workingBase = some [[5]] ∧
      apply_method "Totally Unknown" 3 false sessA = (sessA, none)) ∧
    (sessA.original = some [[5]] ∧
      add_noise noiseId "None" sessA = (sessA, some .noNoiseType)) ∧
    (apply_method "Mean Filter" 4 false sessA).2 = none := by
  have h := no_invalid_parameter_validation
  refine ⟨⟨by decide, by decide, h.1 4 (by decide) (by decide)⟩, ?_, ?_, ?_⟩
  · exact ⟨rfl, h.2.1 "Totally Unknown" 3 false sessA [[5]] rfl (by decide)⟩
  · exact ⟨rfl, h.2.2.1 noiseId "None" sessA [[5]] rfl (by decide) (by decide)⟩
  · exact h.2.2.2 4 sessA [[5]] rfl

/-- C7: when `apply_method` runs Laplacian Sharpening or Sobel Edge
Detection with the smooth-before-sharpen flag set, the input is first
median-filtered at the fixed kernel size 5 and the recorded label carries
the "Smoothed then " marker; with the flag clear, or for the other
methods even with the flag set, no pre-smoothing happens and the label is
unprefixed. -/
theorem smooth_before_sharpen_presmooths (s : Session) (b : Raster) (k : Nat)
    (h : s.workingBase = some b) :
    (apply_method "Laplacian Sharpening" k true s).1.results =
      insertResult "Smoothed then Laplacian Sharpening"
        (apply_laplacian_filter (apply_median_filter b 5)) s.results ∧
    (apply_method "Sobel Edge Detection" k true s).1.results =
      insertResult "Smoothed then Sobel Edge Detection"
        (apply_sobel_filter (apply_median_filter b 5)) s.results ∧
    (apply_method "Laplacian Sharpening" k false s).1.results =
      insertResult "Laplacian Sharpening" (apply_laplacian_filter b) s.results ∧
    (apply_method "Sobel Edge Detection" k false s).1.results =
      insertResult "Sobel Edge Detection" (apply_sobel_filter b) s.results ∧
    (apply_method "Mean Filter" k true s).1.results =
      insertResult "Mean Filter" (apply_mean_filter b k) s.results ∧
    (apply_method "Median Filter" k true s).1.results =
      insertResult "Median Filter" (apply_median_filter b k) s.results ∧
    (apply_method "Mode Filter" k true s).1.results =
      insertResult "Mode Filter" (apply_mode_filter b k) s.results := by
  simp only [apply_method, h]
  exact ⟨rfl, rfl, rfl, rfl, rfl, rfl, rfl⟩

theorem smooth_before_sharpen_presmooths_witness :
    sessA.workingBase = some [[5]] ∧
    (apply_method "Laplacian Sharpening" 3 true sessA).1.results =
      insertResult "Smoothed then Laplacian Sharpening"
        (apply_laplacian_filter (apply_median_filter [[5]] 5)) sessA.results ∧
    (apply_method "Mean Filter" 3 true sessA).1.results =
      insertResult "Mean Filter" (apply_mean_filter [[5]] 3) sessA.results := by
  have h := smooth_before_sharpen_presmooths sessA [[5]] 3 rfl
  exact ⟨rfl, h.1, h.2.2.2.2.1⟩

/-- C8: every failing operation (unreadable load, reset or noise with no
image loaded, noise with no mode selected, filter with no working base,
report with no results) returns the error with the session exactly as it
was: failures never partially update `original`, `workingBase` or the
entries. -/
theorem failures_preserve_state (s : Session) (name mode method : String)
    (fn : String → Raster → Raster) (k kNow : Nat) (sm : Bool) :
    upload_image none name s = (s, some .couldNotRead) ∧
    (s.original = none → reset_image s = (s, some .noImage)) ∧
    (s.original = none → add_noise fn mode s = (s, some .noImage)) ∧
    (∀ o, s.original = some o → mode ≠ "gaussian" → mode ≠ "s&p" →
      add_noise fn mode s = (s, some .noNoiseType)) ∧
    (s.workingBase = none → apply_method method k sm s = (s, some .noImage)) ∧
    (s.results.length ≤ 1 → save_report kNow s = .error .noResults) := by
  refine ⟨rfl, ?_, ?_, ?_, ?_, ?_⟩
  · intro h
    rw [reset_image, h]
  · intro h
    rw [add_noise, h]
  · intro o ho hg hsp
    simp [add_noise, ho, hg, hsp]
  · intro h
    rw [apply_method, h]
  · intro h
    rw [save_report, if_pos h]

theorem failures_preserve_state_witness :
    upload_image none "x" sessEmpty = (sessEmpty, some .couldNotRead) ∧
    reset_image sessEmpty = (sessEmpty, some .noImage) ∧
    add_noise noiseId "None" sessEmpty = (sessEmpty, some .noImage) ∧
    add_noise noiseId "None" sessA = (sessA, some .noNoiseType) ∧
    apply_method "Mean Filter" 3 false sessEmpty = (sessEmpty, some .noImage) ∧
    save_report 3 sessA = .error .noResults := by
  refine ⟨?_, ?_, ?_, ?_, ?_, ?_⟩
  · exact (failures_preserve_state sessEmpty "x" "None" "Mean Filter"
      noiseId 3 3 false).1
  · exact (failures_preserve_state sessEmpty "x" "None" "Mean Filter"
      noiseId 3 3 false).2.1 rfl
  · exact (failures_preserve_state sessEmpty "x" "None" "Mean Filter"
      noiseId 3 3 false).2.2.1 rfl
  · exact (failures_preserve_state sessA "x" "None" "Mean Filter"
      noiseId 3 3 false).2.2.2.1 [[5]] rfl (by decide) (by decide)
  · exact (failures_preserve_state sessEmpty "x" "None" "Mean Filter"
      noiseId 3 3 false).2.2.2.2.1 rfl
  · exact (failures_preserve_state sessA "x" "None" "Mean Filter"
      noiseId 3 3 false).2.2.2.2.2 (by decide)

/-- C10: the kernel size printed in a Mean Filter report entry is the
kernel size selected at export time, identically for every such entry,
not the size in effect when the entry's raster was produced: an entry
produced with k = 3 but exported while the slider reads 5 is described
with 5. -/
theorem report_uses_export_time_ksize (kNow : Nat) (orig : Option Raster)
    (e : String × Raster) (he : cleanName e.1 = "Mean Filter") :
    (entryPage orig kNow e).noteText =
      some ("Filter Expression:\n" ++ ("Kernel: 1/" ++ toString (kNow * kNow) ++
        " * ones(" ++ toString kNow ++ "," ++ toString kNow ++ ")")) ∧
    (∀ e2 : String × Raster, cleanName e2.1 = "Mean Filter" →
      (entryPage orig kNow e2).noteText = (entryPage orig kNow e).noteText) ∧
    (save_report 5 (apply_method "Mean Filter" 3 false sessA).1).map
        (fun pages => (pages.getD 1 ⟨"", none, none, none⟩).noteText) =
      Except.ok (some "Filter Expression:\nKernel: 1/25 * ones(5,5)") := by
  have hbase : ∀ e3 : String × Raster, cleanName e3.1 = "Mean Filter" →
      (entryPage orig kNow e3).noteText =
        some ("Filter Expression:\n" ++ ("Kernel: 1/" ++ toString (kNow * kNow) ++
          " * ones(" ++ toString kNow ++ "," ++ toString kNow ++ ")")) := by
    intro e3 he3
    simp [entryPage, he3, filter_kernels]
  refine ⟨hbase e he, ?_, ?_⟩
  · intro e2 he2
    rw [hbase e2 he2, hbase e he]
  · rfl

theorem report_uses_export_time_ksize_witness :
    cleanName ("Mean Filter", ([[7]] : Raster)).1 = "Mean Filter" ∧
    (entryPage (some [[5]]) 7 ("Mean Filter", [[7]])).noteText =
      some ("Filter Expression:\n" ++ ("Kernel: 1/" ++ toString (7 * 7) ++
        " * ones(" ++ toString 7 ++ "," ++ toString 7 ++ ")")) :=
  ⟨by decide, (report_uses_export_time_ksize 7 (some [[5]])
    ("Mean Filter", [[7]]) (by decide)).1⟩

end SpatialFiltering
